import Mathlib

/-!
Verification of `magenta/lib/midi_io.py`, the MIDI ↔ NoteSequence codec.

The Python module converts between a parsed `pretty_midi.PrettyMIDI` object
and a `NoteSequence` protobuf.  We embed both data models and the two
conversion functions (`midi_to_sequence_proto` and
`sequence_proto_to_pretty_midi`) shallowly:

* Python floats carrying times / bpm values are modelled as `ℚ` — the decoder
  performs only copies and comparisons on them (exact on floats), and the
  encoder's `60.0 / (resolution * bpm)` is modelled as exact division.
* Python 2 integer `%` and `/` (floor semantics, positive divisor) are
  `Int.emod` / `Int.ediv`, which agree with them for the divisor 12 used here.
* Raised exceptions become `Except MIDIConversionError`; the `None` sentinel
  returned under `continue_on_exception` becomes an `Option` layer.
* The collaborator library `pretty_midi` is out of scope: its parser is
  modelled as an `Option PrettyMIDI` outcome, and its `time_to_tick` method
  (which reads the object's resolution, constructor tempo and the tick-scale
  entries installed so far) is a function parameter of the encoder.
-/

namespace MidiIO

/-- Rational numbers standing in for the Python floats of the module. -/
abbrev Time := ℚ

/-! ## The pretty_midi object model (collaborator side) -/

/-- `pretty_midi.Note`: fields `velocity`, `pitch`, `start`, `end`. -/
structure MidiNote where
  velocity : Int
  pitch : Int
  start : Time
  end_ : Time
  deriving Repr, DecidableEq

/-- `pretty_midi.PitchBend`: fields `pitch` (the bend amount) and `time`. -/
structure MidiPitchBend where
  pitch : Int
  time : Time
  deriving Repr, DecidableEq

/-- `pretty_midi.ControlChange`: fields `number`, `value`, `time`. -/
structure MidiControlChange where
  number : Int
  value : Int
  time : Time
  deriving Repr, DecidableEq

/-- `pretty_midi.Instrument`: a program number, drum flag and event lists. -/
structure MidiInstrument where
  program : Int
  is_drum : Bool
  notes : List MidiNote
  pitch_bends : List MidiPitchBend
  control_changes : List MidiControlChange
  deriving Repr, DecidableEq

/-- `pretty_midi.containers.TimeSignature`. -/
structure MidiTimeSignature where
  numerator : Int
  denominator : Int
  time : Time
  deriving Repr, DecidableEq

/-- `pretty_midi.containers.KeySignature`: composite `key_number` and `time`. -/
structure MidiKeySignature where
  key_number : Int
  time : Time
  deriving Repr, DecidableEq

/-- A parsed `pretty_midi.PrettyMIDI` object, as read by the decoder through
the accessors the source uses (`resolution`, `time_signature_changes`,
`key_signature_changes`, `get_tempo_changes()` as parallel (time, bpm) pairs,
`instruments`). -/
structure PrettyMIDI where
  resolution : Int
  time_signature_changes : List MidiTimeSignature
  key_signature_changes : List MidiKeySignature
  tempo_changes : List (Time × ℚ)
  instruments : List MidiInstrument
  deriving Repr, DecidableEq

/-! ## The NoteSequence protobuf model -/

/-- `NoteSequence.KeySignature.Mode`. -/
inductive Mode where
  | MAJOR
  | MINOR
  deriving Repr, DecidableEq

structure SeqTimeSignature where
  time : Time
  numerator : Int
  denominator : Int
  deriving Repr, DecidableEq

structure SeqKeySignature where
  time : Time
  key : Int
  mode : Mode
  deriving Repr, DecidableEq

structure SeqTempo where
  time : Time
  bpm : ℚ
  deriving Repr, DecidableEq

structure SeqNote where
  instrument : Int
  program : Int
  start_time : Time
  end_time : Time
  pitch : Int
  velocity : Int
  deriving Repr, DecidableEq

structure SeqPitchBend where
  instrument : Int
  program : Int
  time : Time
  bend : Int
  deriving Repr, DecidableEq

structure SeqControlChange where
  instrument : Int
  program : Int
  time : Time
  control_number : Int
  control_value : Int
  deriving Repr, DecidableEq

/-- `tensorflow.magenta.NoteSequence`, restricted to the fields this module
populates. -/
structure NoteSequence where
  ticks_per_beat : Int
  total_time : Time
  time_signatures : List SeqTimeSignature
  key_signatures : List SeqKeySignature
  tempos : List SeqTempo
  notes : List SeqNote
  pitch_bends : List SeqPitchBend
  control_changes : List SeqControlChange
  deriving Repr, DecidableEq

/-- `MIDIConversionError`, with the two messages the module raises. -/
inductive MIDIConversionError where
  /-- `'Invalid midi_mode %i' % midi_mode` — the fatal key-signature check. -/
  | invalidMidiMode (midi_mode : Int)
  /-- `'Midi decoding error %s: %s'` — wraps an upstream pretty_midi failure. -/
  | decodingError
  deriving Repr, DecidableEq

/-! ## Decoder: `midi_to_sequence_proto` -/

/-- The offset `_PRETTY_MIDI_MAJOR_TO_MINOR_OFFSET`. -/
def PRETTY_MIDI_MAJOR_TO_MINOR_OFFSET : Int := 12

/-- The key-signature branch of `midi_to_sequence_proto` (lines 95–105):
`key = key_number % 12`, `midi_mode = key_number / 12`, mode 0 ↦ MAJOR,
mode 1 ↦ MINOR, anything else raises `MIDIConversionError`. -/
def decodeKeySignature (midi_key : MidiKeySignature) :
    Except MIDIConversionError SeqKeySignature :=
  let key := midi_key.key_number % 12
  let midi_mode := midi_key.key_number / 12
  if midi_mode = 0 then
    .ok { time := midi_key.time, key := key, mode := Mode.MAJOR }
  else if midi_mode = 1 then
    .ok { time := midi_key.time, key := key, mode := Mode.MINOR }
  else
    .error (.invalidMidiMode midi_mode)

/-- The `for midi_key in midi.key_signature_changes` loop: the first invalid
key aborts the whole conversion. -/
def decodeKeySignatures :
    List MidiKeySignature → Except MIDIConversionError (List SeqKeySignature)
  | [] => .ok []
  | midi_key :: rest => do
    let ks ← decodeKeySignature midi_key
    let ks_rest ← decodeKeySignatures rest
    pure (ks :: ks_rest)

/-- One step of the `sequence.total_time` update (lines 124–125):
`if not sequence.total_time or midi_note.end > sequence.total_time`. -/
def updateTotalTime (total_time : Time) (end_ : Time) : Time :=
  if total_time = 0 ∨ end_ > total_time then end_ else total_time

/-- The instrument-major gathering loop (lines 119–132), specialised to one
event-list projection `f`: `enumerate(midi.instruments)` appending
`(program, num_instrument, event)` triples in source order. -/
def gatherEvents (f : MidiInstrument → List α) (instruments : List MidiInstrument) :
    List (Int × Int × α) :=
  instruments.enum.foldl
    (fun acc x =>
      acc ++ (f x.2).map (fun e => (x.2.program, (x.1 : Int), e)))
    []

/-- The infallible remainder of the decode (lines 82–161 minus the key
signatures): header, time signatures, tempos, the gathered notes / pitch
bends / control changes in collection order, and the running-maximum
`total_time`. -/
def buildSequence (midi : PrettyMIDI)
    (key_signatures : List SeqKeySignature) : NoteSequence :=
  let midi_notes := gatherEvents MidiInstrument.notes midi.instruments
  let midi_pitch_bends := gatherEvents MidiInstrument.pitch_bends midi.instruments
  let midi_control_changes :=
    gatherEvents MidiInstrument.control_changes midi.instruments
  { ticks_per_beat := midi.resolution
    total_time :=
      midi_notes.foldl (fun tt x => updateTotalTime tt x.2.2.end_) 0
    time_signatures :=
      midi.time_signature_changes.map (fun midi_time =>
        { time := midi_time.time
          numerator := midi_time.numerator
          denominator := midi_time.denominator })
    key_signatures := key_signatures
    tempos :=
      midi.tempo_changes.map (fun x => { time := x.1, bpm := x.2 })
    notes :=
      midi_notes.map (fun x =>
        { instrument := x.2.1
          program := x.1
          start_time := x.2.2.start
          end_time := x.2.2.end_
          pitch := x.2.2.pitch
          velocity := x.2.2.velocity })
    pitch_bends :=
      midi_pitch_bends.map (fun x =>
        { instrument := x.2.1
          program := x.1
          time := x.2.2.time
          bend := x.2.2.pitch })
    control_changes :=
      midi_control_changes.map (fun x =>
        { instrument := x.2.1
          program := x.1
          time := x.2.2.time
          control_number := x.2.2.number
          control_value := x.2.2.value }) }

/-- Decode a parsed pretty_midi object into a `NoteSequence`
(`midi_to_sequence_proto` after the parsing prologue, lines 82–161). -/
def decodePrettyMIDI (midi : PrettyMIDI) :
    Except MIDIConversionError NoteSequence := do
  let key_signatures ← decodeKeySignatures midi.key_signature_changes
  pure (buildSequence midi key_signatures)

/-- The argument of `midi_to_sequence_proto`: either an already-populated
`PrettyMIDI` object, or a MIDI string whose parse by the collaborator either
yields an object or raises (modelled by the `Option`). -/
inductive MidiData where
  | object (midi : PrettyMIDI)
  | bytes (parsed : Option PrettyMIDI)
  deriving Repr, DecidableEq

/-- `midi_to_sequence_proto(midi_data, continue_on_exception=False)`.
`Except.error e` models a raised exception; `Except.ok none` models the
`return None` taken when the upstream parse fails and
`continue_on_exception` is set. -/
def midi_to_sequence_proto (midi_data : MidiData)
    (continue_on_exception : Bool := false) :
    Except MIDIConversionError (Option NoteSequence) :=
  match midi_data with
  | .object midi => (decodePrettyMIDI midi).map some
  | .bytes (some midi) => (decodePrettyMIDI midi).map some
  | .bytes none =>
    if continue_on_exception then .ok none
    else .error .decodingError

/-- `midi_file_to_sequence_proto(midi_file, continue_on_exception=False)`
(lines 242–265), modelled on the parse outcome of the file's contents.  The
inner call passes no flag (so uses the default `False`), and the surrounding
`except MIDIConversionError` suppresses any conversion error when
`continue_on_exception` is set. -/
def midi_file_to_sequence_proto (file_parsed : Option PrettyMIDI)
    (continue_on_exception : Bool := false) :
    Except MIDIConversionError (Option NoteSequence) :=
  match midi_to_sequence_proto (.bytes file_parsed) false with
  | .ok r => .ok r
  | .error e =>
    if continue_on_exception then .ok none
    else .error e

/-! ## Encoder: `sequence_proto_to_pretty_midi` -/

/-- The `pretty_midi.PrettyMIDI` object built by the encoder.
`initial_tempo` records the optional constructor kwarg (line 180);
`tick_scales` records the `(tick, tick_scale)` pairs the encoder appends to
the object's internal `__tick_scales` table (lines 205–211) beyond whatever
the constructor installed. -/
structure PrettyMIDIOut where
  resolution : Int
  initial_tempo : Option ℚ
  tick_scales : List (Int × ℚ)
  time_signature_changes : List MidiTimeSignature
  key_signature_changes : List MidiKeySignature
  instruments : List MidiInstrument
  deriving Repr, DecidableEq

/-- The collaborator's `pm.time_to_tick`: a function of the object's
resolution, constructor `initial_tempo` and the tick-scale entries appended
so far, kept abstract (pretty_midi internals are out of scope). -/
abbrev TimeToTick := Int → Option ℚ → List (Int × ℚ) → Time → Int

/-- The key-signature branch of the encoder (lines 194–200): MINOR adds the
major-to-minor offset 12 to the stored pitch class, MAJOR leaves it. -/
def encodeKeySignature (seq_key : SeqKeySignature) : MidiKeySignature :=
  let key_number :=
    if seq_key.mode = Mode.MINOR then
      seq_key.key + PRETTY_MIDI_MAJOR_TO_MINOR_OFFSET
    else seq_key.key
  { key_number := key_number, time := seq_key.time }

/-- The event-key of a note, `(seq_note.instrument, seq_note.program)`. -/
def noteKey (n : SeqNote) : Int × Int := (n.instrument, n.program)

/-- The event-key of a pitch bend. -/
def bendKey (b : SeqPitchBend) : Int × Int := (b.instrument, b.program)

/-- The event-key of a control change. -/
def ccKey (c : SeqControlChange) : Int × Int := (c.instrument, c.program)

/-- `instrument_events[(instr_id, prog_id)]['notes']`: the sequence's notes
with that key, in original order, rebuilt as
`pretty_midi.Note(velocity, pitch, start_time, end_time)`. -/
def notesFor (sequence : NoteSequence) (k : Int × Int) : List MidiNote :=
  (sequence.notes.filter (fun n => noteKey n = k)).map (fun n =>
    { velocity := n.velocity, pitch := n.pitch,
      start := n.start_time, end_ := n.end_time })

/-- `instrument_events[(instr_id, prog_id)]['bends']`, rebuilt as
`pretty_midi.PitchBend(bend, time)`. -/
def bendsFor (sequence : NoteSequence) (k : Int × Int) : List MidiPitchBend :=
  (sequence.pitch_bends.filter (fun b => bendKey b = k)).map (fun b =>
    { pitch := b.bend, time := b.time })

/-- `instrument_events[(instr_id, prog_id)]['controls']`, rebuilt as
`pretty_midi.ControlChange(control_number, control_value, time)`. -/
def ccsFor (sequence : NoteSequence) (k : Int × Int) : List MidiControlChange :=
  (sequence.control_changes.filter (fun c => ccKey c = k)).map (fun c =>
    { number := c.control_number, value := c.control_value, time := c.time })

/-- Python tuple order on the `(instrument, program)` keys. -/
def keyLE (a b : Int × Int) : Prop :=
  a.1 < b.1 ∨ (a.1 = b.1 ∧ a.2 ≤ b.2)

instance : DecidableRel keyLE := fun a b => by
  unfold keyLE; infer_instance

/-- The distinct `(instrument, program)` keys of `instrument_events`.  The
defaultdict's key set is iterated through `sorted(...)`, so only the set
matters; we collect keys from notes, bends and control changes and remove
duplicates. -/
def eventKeys (sequence : NoteSequence) : List (Int × Int) :=
  (sequence.notes.map noteKey ++ sequence.pitch_bends.map bendKey ++
    sequence.control_changes.map ccKey).dedup

/-- `sorted(instrument_events.keys())`: the distinct keys in ascending tuple
order. -/
def sortedKeys (sequence : NoteSequence) : List (Int × Int) :=
  (eventKeys sequence).insertionSort keyLE

/-- `pretty_midi.Instrument(0)`: the placeholder created at line 184 to
carry time/key signatures, program 0, not a drum. -/
def placeholderInstrument : MidiInstrument :=
  { program := 0, is_drum := false, notes := [], pitch_bends := [],
    control_changes := [] }

/-- `pretty_midi.Instrument(prog_id, is_drum=(instr_id == 9))` (line 231). -/
def newInstrument (k : Int × Int) : MidiInstrument :=
  { program := k.2, is_drum := k.1 = 9, notes := [], pitch_bends := [],
    control_changes := [] }

/-- Lines 233–237: assign the group's program and event lists to the current
`instrument` binding (its `is_drum` flag is left as created). -/
def setEvents (sequence : NoteSequence) (k : Int × Int)
    (instrument : MidiInstrument) : MidiInstrument :=
  { instrument with
    program := k.2
    notes := notesFor sequence k
    pitch_bends := bendsFor sequence k
    control_changes := ccsFor sequence k }

/-- In-place update of one list element (Python attribute mutation on an
object held inside `pm.instruments`). -/
def modifyIdx (f : α → α) : Nat → List α → List α
  | _, [] => []
  | 0, x :: xs => f x :: xs
  | n + 1, x :: xs => x :: modifyIdx f n xs

/-- The mutable state of the loop at lines 228–237: the `pm.instruments`
list plus the index of the instrument the local variable `instrument`
currently points at. -/
structure EncState where
  instruments : List MidiInstrument
  cur : Nat
  deriving Repr, DecidableEq

/-- One iteration of `for (instr_id, prog_id) in sorted(...)`: when
`instr_id > 0` a fresh instrument is created and appended and the binding
moves to it; in every case the bound instrument receives the group's
program and events. -/
def processKey (sequence : NoteSequence) (st : EncState) (k : Int × Int) :
    EncState :=
  if 0 < k.1 then
    let idx := st.instruments.length
    { instruments :=
        modifyIdx (setEvents sequence k) idx
          (st.instruments ++ [newInstrument k])
      cur := idx }
  else
    { instruments := modifyIdx (setEvents sequence k) st.cur st.instruments
      cur := st.cur }

/-- `sequence_proto_to_pretty_midi(sequence)` (lines 164–239), parameterised
by the collaborator's time→tick mapping. -/
def sequence_proto_to_pretty_midi (time_to_tick : TimeToTick)
    (sequence : NoteSequence) : PrettyMIDIOut :=
  let initial_tempo : Option ℚ :=
    match sequence.tempos with
    | [] => none
    | t0 :: _ => if t0.time = 0 then some t0.bpm else none
  let tick_scales : List (Int × ℚ) :=
    (sequence.tempos.drop 1).foldl
      (fun acc seq_tempo =>
        let tick_scale := 60 / ((sequence.ticks_per_beat : ℚ) * seq_tempo.bpm)
        let tick :=
          time_to_tick sequence.ticks_per_beat initial_tempo acc seq_tempo.time
        acc ++ [(tick, tick_scale)])
      []
  let st := (sortedKeys sequence).foldl (processKey sequence)
    { instruments := [placeholderInstrument], cur := 0 }
  { resolution := sequence.ticks_per_beat
    initial_tempo := initial_tempo
    tick_scales := tick_scales
    time_signature_changes :=
      sequence.time_signatures.map (fun seq_ts =>
        { numerator := seq_ts.numerator, denominator := seq_ts.denominator,
          time := seq_ts.time })
    key_signature_changes := sequence.key_signatures.map encodeKeySignature
    instruments := st.instruments }

/-! ## Concrete inputs used by witnesses and counterexamples -/

/-- A parsed object whose only key signature has the out-of-range
`key_number = 24`. -/
def exampleInvalidKeyMidi : PrettyMIDI :=
  { resolution := 220, time_signature_changes := [], key_signature_changes :=
      [{ key_number := 24, time := 0 }],
    tempo_changes := [], instruments := [] }

/-- A parsed object with the in-range key numbers 5 (C major family) and
14 (D minor family). -/
def exampleValidKeysMidi : PrettyMIDI :=
  { resolution := 220, time_signature_changes := [], key_signature_changes :=
      [{ key_number := 5, time := 0 }, { key_number := 14, time := 1 }],
    tempo_changes := [], instruments := [] }

/-! ## Key-signature decode (lines 95–105) -/

/-- An in-range key number decodes to pitch class `key_number % 12` and mode
MAJOR below 12, MINOR from 12 to 23. -/
lemma decodeKeySignature_ok (midi_key : MidiKeySignature)
    (h0 : 0 ≤ midi_key.key_number) (h1 : midi_key.key_number < 24) :
    decodeKeySignature midi_key =
      .ok { time := midi_key.time, key := midi_key.key_number % 12,
            mode := if midi_key.key_number < 12 then Mode.MAJOR
              else Mode.MINOR } := by
  unfold decodeKeySignature
  rcases lt_or_le midi_key.key_number 12 with h | h
  · rw [if_pos (by omega), if_pos (by omega)]
  · rw [if_neg (by omega), if_pos (by omega), if_neg (by omega)]

/-- An out-of-range key number makes the key-signature branch raise. -/
lemma decodeKeySignature_error (midi_key : MidiKeySignature)
    (h : midi_key.key_number < 0 ∨ 24 ≤ midi_key.key_number) :
    decodeKeySignature midi_key =
      .error (.invalidMidiMode (midi_key.key_number / 12)) := by
  unfold decodeKeySignature
  rw [if_neg (by omega), if_neg (by omega)]

/-- The per-element decode of a list whose key numbers are all in range. -/
lemma decodeKeySignatures_ok (l : List MidiKeySignature)
    (h : ∀ k ∈ l, 0 ≤ k.key_number ∧ k.key_number < 24) :
    decodeKeySignatures l =
      .ok (l.map (fun (k : MidiKeySignature) =>
        { time := k.time, key := k.key_number % 12,
          mode := if k.key_number < 12 then Mode.MAJOR else Mode.MINOR })) := by
  induction l with
  | nil => rfl
  | cons k rest ih =>
    have hk := h k (by simp)
    rw [decodeKeySignatures,
      decodeKeySignature_ok k hk.1 hk.2,
      ih (fun x hx => h x (by simp [hx]))]
    rfl

/-- Any out-of-range key number in the list aborts the whole list decode with
the invalid-mode error. -/
lemma decodeKeySignatures_error (l : List MidiKeySignature)
    (h : ∃ k ∈ l, k.key_number < 0 ∨ 24 ≤ k.key_number) :
    ∃ mm, decodeKeySignatures l = .error (.invalidMidiMode mm) := by
  induction l with
  | nil => simp at h
  | cons k rest ih =>
    rcases h with ⟨k0, hk0, hout⟩
    by_cases hk : k.key_number < 0 ∨ 24 ≤ k.key_number
    · exact ⟨k.key_number / 12, by
        rw [decodeKeySignatures, decodeKeySignature_error k hk]; rfl⟩
    · push_neg at hk
      have hmem : k0 ∈ rest := by
        rcases List.mem_cons.mp hk0 with rfl | hmem
        · exact absurd hout (by omega)
        · exact hmem
      rcases ih ⟨k0, hmem, hout⟩ with ⟨mm, hmm⟩
      refine ⟨mm, ?_⟩
      rw [decodeKeySignatures, decodeKeySignature_ok k (by omega) (by omega),
        hmm]
      rfl

/-- Decoding a full object succeeds with the described record exactly when
the key-signature list decodes. -/
lemma decodePrettyMIDI_ok_iff (midi : PrettyMIDI) (ks : List SeqKeySignature)
    (h : decodeKeySignatures midi.key_signature_changes = .ok ks) :
    ∃ s, decodePrettyMIDI midi = .ok s ∧ s.key_signatures = ks := by
  unfold decodePrettyMIDI
  rw [h]
  exact ⟨_, rfl, rfl⟩

/-- Key-signature decode failure propagates through `decodePrettyMIDI`. -/
lemma decodePrettyMIDI_error (midi : PrettyMIDI) (e : MIDIConversionError)
    (h : decodeKeySignatures midi.key_signature_changes = .error e) :
    decodePrettyMIDI midi = .error e := by
  rw [decodePrettyMIDI, h]; rfl

/-- C1: for every decode input whose key-signature list has all key numbers
in `[0, 23]`, the decoder produces key signatures with pitch class
`key_number % 12` and mode MAJOR below 12, MINOR from 12 to 23; an input
containing a negative key number or one `≥ 24` raises the fatal
`MIDIConversionError`. -/
theorem decode_key_signature_range (midi : PrettyMIDI) (c : Bool) :
    ((∀ k ∈ midi.key_signature_changes, 0 ≤ k.key_number ∧ k.key_number < 24) →
      ∃ s, midi_to_sequence_proto (.object midi) c = .ok (some s) ∧
        s.key_signatures = midi.key_signature_changes.map
          (fun (k : MidiKeySignature) =>
            { time := k.time, key := k.key_number % 12,
              mode := if k.key_number < 12 then Mode.MAJOR
                else Mode.MINOR })) ∧
    ((∃ k ∈ midi.key_signature_changes, k.key_number < 0 ∨ 24 ≤ k.key_number) →
      ∃ mm, midi_to_sequence_proto (.object midi) c =
        .error (.invalidMidiMode mm)) := by
  constructor
  · intro h
    rcases decodePrettyMIDI_ok_iff midi _ (decodeKeySignatures_ok _ h) with
      ⟨s, hs, hks⟩
    exact ⟨s, by rw [midi_to_sequence_proto, hs]; rfl, hks⟩
  · intro h
    rcases decodeKeySignatures_error _ h with ⟨mm, hmm⟩
    exact ⟨mm, by
      rw [midi_to_sequence_proto, decodePrettyMIDI_error midi _ hmm]; rfl⟩

/-- Witness for C1 at concrete inputs: key numbers 5 and 14 decode to
(F, MAJOR) and (D, MINOR); key number 24 raises. -/
theorem decode_key_signature_range_witness :
    (∃ s, midi_to_sequence_proto (.object exampleValidKeysMidi) false =
        .ok (some s) ∧
      s.key_signatures =
        [{ time := 0, key := 5, mode := Mode.MAJOR },
         { time := 1, key := 2, mode := Mode.MINOR }]) ∧
    (∃ mm, midi_to_sequence_proto (.object exampleInvalidKeyMidi) false =
      .error (.invalidMidiMode mm)) := by
  constructor
  · rcases (decode_key_signature_range exampleValidKeysMidi false).1
      (by decide) with ⟨s, hs, hks⟩
    exact ⟨s, hs, by rw [hks]; rfl⟩
  · exact (decode_key_signature_range exampleInvalidKeyMidi false).2
      ⟨{ key_number := 24, time := 0 }, by decide, by decide⟩

/-- C5: the encoder's key-signature branch is the exact inverse of the
decoder's: MAJOR keeps the pitch class, MINOR adds 12, time is preserved;
hence decoding any key number in `[0, 23]` and re-encoding restores it. -/
theorem key_signature_encode_inverse :
    (∀ s : SeqKeySignature, encodeKeySignature s =
      { key_number := if s.mode = Mode.MINOR then s.key + 12 else s.key,
        time := s.time }) ∧
    (∀ k : MidiKeySignature, 0 ≤ k.key_number → k.key_number < 24 →
      ∃ s, decodeKeySignature k = .ok s ∧ encodeKeySignature s = k) := by
  constructor
  · intro s
    simp [encodeKeySignature, PRETTY_MIDI_MAJOR_TO_MINOR_OFFSET]
  · intro k h0 h1
    refine ⟨_, decodeKeySignature_ok k h0 h1, ?_⟩
    rcases lt_or_le k.key_number 12 with h | h
    · simp only [encodeKeySignature, if_pos h]
      have : k.key_number % 12 = k.key_number := by omega
      simp [this]
    · simp only [encodeKeySignature, if_neg (not_lt.mpr h)]
      have : k.key_number % 12 + PRETTY_MIDI_MAJOR_TO_MINOR_OFFSET =
          k.key_number := by
        unfold PRETTY_MIDI_MAJOR_TO_MINOR_OFFSET
        omega
      simp [this]

/-- Witness for C5 at the concrete key number 14: it decodes to (D, MINOR)
and re-encodes to 14. -/
theorem key_signature_encode_inverse_witness :
    ∃ s, decodeKeySignature { key_number := 14, time := 7 } = .ok s ∧
      encodeKeySignature s = { key_number := 14, time := 7 } :=
  key_signature_encode_inverse.2 { key_number := 14, time := 7 }
    (by decide) (by decide)

/-- C6: an unparseable byte input returns the `None` sentinel without
raising when `continue_on_exception` is true, and raises
`MIDIConversionError` under the default `continue_on_exception = false`. -/
theorem unparseable_input_continue_on_exception :
    midi_to_sequence_proto (.bytes none) true = .ok none ∧
    midi_to_sequence_proto (.bytes none) = .error .decodingError :=
  ⟨rfl, rfl⟩

/-- C2 counterexample: the claim says `midi_file_to_sequence_proto` raises
the fatal invalid-key-mode error even when `continue_on_exception` is true,
but on a file whose parsed object carries `key_number = 24` it returns the
`None` sentinel instead of raising. -/
theorem fatal_key_error_suppressed_by_file_decoder :
    midi_file_to_sequence_proto (some exampleInvalidKeyMidi) true =
      .ok none ∧
    midi_to_sequence_proto (.bytes (some exampleInvalidKeyMidi)) true =
      .error (.invalidMidiMode 2) := ⟨rfl, rfl⟩

/-- C2 amended: `midi_to_sequence_proto` indeed raises the invalid-key-mode
error regardless of `continue_on_exception` (for both object and parsed-byte
inputs), but `midi_file_to_sequence_proto` catches every conversion error,
so with `continue_on_exception = true` it suppresses this one too and
returns `None`; it propagates the error only when the flag is false. -/
theorem fatal_key_error_propagation_amended (midi : PrettyMIDI) (c : Bool)
    (h : ∃ k ∈ midi.key_signature_changes,
      k.key_number < 0 ∨ 24 ≤ k.key_number) :
    (∃ mm, midi_to_sequence_proto (.object midi) c =
      .error (.invalidMidiMode mm)) ∧
    (∃ mm, midi_to_sequence_proto (.bytes (some midi)) c =
      .error (.invalidMidiMode mm)) ∧
    midi_file_to_sequence_proto (some midi) true = .ok none ∧
    (∃ mm, midi_file_to_sequence_proto (some midi) false =
      .error (.invalidMidiMode mm)) := by
  rcases decodeKeySignatures_error _ h with ⟨mm, hmm⟩
  have hobj : ∀ d : Bool, midi_to_sequence_proto (.object midi) d =
      .error (.invalidMidiMode mm) := fun d => by
    rw [midi_to_sequence_proto, decodePrettyMIDI_error midi _ hmm]; rfl
  have hbytes : ∀ d : Bool, midi_to_sequence_proto (.bytes (some midi)) d =
      .error (.invalidMidiMode mm) := fun d => by
    rw [midi_to_sequence_proto, decodePrettyMIDI_error midi _ hmm]; rfl
  refine ⟨⟨mm, hobj c⟩, ⟨mm, hbytes c⟩, ?_, ⟨mm, ?_⟩⟩
  · rw [midi_file_to_sequence_proto, hbytes false]; rfl
  · rw [midi_file_to_sequence_proto, hbytes false]; rfl

/-- Witness for the amended C2 at the concrete out-of-range input. -/
theorem fatal_key_error_propagation_amended_witness :
    (∃ mm, midi_to_sequence_proto (.object exampleInvalidKeyMidi) true =
      .error (.invalidMidiMode mm)) ∧
    (∃ mm, midi_to_sequence_proto (.bytes (some exampleInvalidKeyMidi)) true =
      .error (.invalidMidiMode mm)) ∧
    midi_file_to_sequence_proto (some exampleInvalidKeyMidi) true = .ok none ∧
    (∃ mm, midi_file_to_sequence_proto (some exampleInvalidKeyMidi) false =
      .error (.invalidMidiMode mm)) :=
  fatal_key_error_propagation_amended exampleInvalidKeyMidi true
    ⟨{ key_number := 24, time := 0 }, by decide, by decide⟩

/-! ## Event gathering and `total_time` (lines 114–161) -/

/-- A fold that appends blocks is a flattened map. -/
lemma foldl_append_eq_flatten (g : α → List β) :
    ∀ (l : List α) (init : List β),
      l.foldl (fun acc x => acc ++ g x) init = init ++ (l.map g).flatten := by
  intro l
  induction l with
  | nil => simp
  | cons x xs ih => intro init; simp [ih]

/-- The gathering loop produces the instrument-major concatenation of the
per-instrument event lists. -/
lemma gatherEvents_eq_flatten (f : MidiInstrument → List α)
    (instruments : List MidiInstrument) :
    gatherEvents f instruments =
      (instruments.enum.map (fun x =>
        (f x.2).map (fun e => (x.2.program, (x.1 : Int), e)))).flatten := by
  unfold gatherEvents
  rw [foldl_append_eq_flatten]
  rfl

/-- Elements of an enumerated list are elements of the list. -/
lemma snd_mem_of_mem_enum {l : List α} {p : ℕ × α} (h : p ∈ l.enum) :
    p.2 ∈ l := by
  rw [List.mem_enum_iff_getElem?] at h
  exact List.getElem?_mem h

/-- Mapping a conversion over the gathered triples is the flattened
per-instrument map. -/
lemma map_gatherEvents (f : MidiInstrument → List α) (conv : Int × Int × α → β)
    (instruments : List MidiInstrument) :
    (gatherEvents f instruments).map conv =
      (instruments.enum.map (fun x =>
        (f x.2).map (fun e => conv (x.2.program, (x.1 : Int), e)))).flatten := by
  rw [gatherEvents_eq_flatten, List.map_flatten, List.map_map]
  congr 1
  congr 1
  funext x
  show List.map conv (List.map _ (f x.2)) = _
  rw [List.map_map]
  rfl

/-- Every gathered triple's event comes from one of the instruments. -/
lemma mem_gatherEvents {f : MidiInstrument → List α}
    {instruments : List MidiInstrument} {x : Int × Int × α}
    (hx : x ∈ gatherEvents f instruments) :
    ∃ inst ∈ instruments, x.2.2 ∈ f inst := by
  rw [gatherEvents_eq_flatten, List.mem_flatten] at hx
  rcases hx with ⟨l, hl, hxl⟩
  rcases List.mem_map.mp hl with ⟨p, hp, rfl⟩
  rcases List.mem_map.mp hxl with ⟨e, he, rfl⟩
  exact ⟨p.2, snd_mem_of_mem_enum hp, he⟩

/-- On nonnegative inputs one update step computes a maximum. -/
lemma updateTotalTime_eq_max (a e : Time) (_ha : 0 ≤ a) (he : 0 ≤ e) :
    updateTotalTime a e = max a e := by
  unfold updateTotalTime
  by_cases h : a = 0 ∨ e > a
  · rw [if_pos h]
    rcases h with h | h
    · rw [h, max_eq_right he]
    · rw [max_eq_right h.le]
  · push_neg at h
    rw [if_neg (by push_neg; exact h), max_eq_left h.2]

/-- On nonnegative inputs the running `total_time` fold is a maximum fold. -/
lemma foldl_update_eq_foldl_max (l : List Time) (h : ∀ x ∈ l, 0 ≤ x) :
    ∀ a, 0 ≤ a → l.foldl updateTotalTime a = l.foldl max a := by
  induction l with
  | nil => intro a _; rfl
  | cons x xs ih =>
    intro a ha
    have hx : (0 : Time) ≤ x := h x (by simp)
    simp only [List.foldl_cons, updateTotalTime_eq_max a x ha hx]
    exact ih (fun y hy => h y (by simp [hy])) _ (le_max_of_le_right hx)

lemma init_le_foldl_max (l : List Time) : ∀ a, a ≤ l.foldl max a := by
  induction l with
  | nil => intro a; exact le_rfl
  | cons x xs ih => intro a; exact le_trans (le_max_left a x) (ih _)

lemma mem_le_foldl_max (l : List Time) :
    ∀ a, ∀ x ∈ l, x ≤ l.foldl max a := by
  induction l with
  | nil => intro a x hx; simp at hx
  | cons y ys ih =>
    intro a x hx
    rcases List.mem_cons.mp hx with rfl | hx
    · exact le_trans (le_max_right a x) (init_le_foldl_max ys _)
    · exact ih _ x hx

lemma foldl_max_eq_init_or_mem (l : List Time) :
    ∀ a, l.foldl max a = a ∨ l.foldl max a ∈ l := by
  induction l with
  | nil => intro a; exact Or.inl rfl
  | cons x xs ih =>
    intro a
    rcases ih (max a x) with h | h
    · rcases max_cases a x with ⟨hm, _⟩ | ⟨hm, _⟩
      · exact Or.inl (by rw [List.foldl_cons, h, hm])
      · exact Or.inr (by rw [List.foldl_cons, h, hm]; simp)
    · exact Or.inr (by simp [h])

/-- The behaviour of the running `total_time` fold on a list of nonnegative
end times: 0 on the empty list, otherwise an attained upper bound. -/
lemma foldl_updateTotalTime_spec (l : List Time) (h : ∀ x ∈ l, 0 ≤ x) :
    (l = [] → l.foldl updateTotalTime 0 = 0) ∧
    (∀ x ∈ l, x ≤ l.foldl updateTotalTime 0) ∧
    (l ≠ [] → l.foldl updateTotalTime 0 ∈ l) := by
  have hmax := foldl_update_eq_foldl_max l h 0 le_rfl
  refine ⟨?_, ?_, ?_⟩
  · intro h0; subst h0; rfl
  · intro x hx; rw [hmax]; exact mem_le_foldl_max _ 0 x hx
  · intro hne
    rw [hmax]
    rcases foldl_max_eq_init_or_mem l 0 with h0 | hm
    · rw [h0]
      cases l with
      | nil => exact absurd rfl hne
      | cons e es =>
        have he : (0 : Time) ≤ e := h e (by simp)
        have hle : e ≤ ((e :: es).foldl max 0) :=
          mem_le_foldl_max _ 0 e (by simp)
        rw [h0] at hle
        have he0 : e = 0 := le_antisymm hle he
        simp [← he0]
    · exact hm

/-- Inversion of a successful object decode. -/
lemma midi_to_sequence_proto_object_ok {midi : PrettyMIDI} {c : Bool}
    {s : NoteSequence}
    (h : midi_to_sequence_proto (.object midi) c = .ok (some s)) :
    ∃ ks, decodeKeySignatures midi.key_signature_changes = .ok ks ∧
      s = buildSequence midi ks := by
  have h' : Except.map some
      (decodeKeySignatures midi.key_signature_changes >>= fun ks =>
        pure (buildSequence midi ks)) = .ok (some s) := h
  cases hd : decodeKeySignatures midi.key_signature_changes with
  | error e => rw [hd] at h'; exact absurd h' (by simp [Except.map])
  | ok ks =>
    rw [hd] at h'
    refine ⟨ks, rfl, ?_⟩
    have h'' : some (buildSequence midi ks) = some s := Except.ok.inj h'
    exact (Option.some.inj h'').symm

/-- C3 counterexample input: one instrument whose two notes end at 0 and
then at −1 second. -/
def exampleNegativeEndMidi : PrettyMIDI :=
  { resolution := 480, time_signature_changes := [], key_signature_changes := [],
    tempo_changes := [], instruments :=
      [{ program := 0, is_drum := false,
         notes :=
           [{ velocity := 10, pitch := 60, start := 0, end_ := 0 },
            { velocity := 10, pitch := 62, start := 0, end_ := -1 }],
         pitch_bends := [], control_changes := [] }] }

/-- C3 counterexample: on an input whose note end times are 0 and −1 the
decoder sets `total_time = -1`, which is not the maximum end time (the note
ending at 0 exceeds it), because the update `if not sequence.total_time`
re-fires whenever the running value is 0. -/
theorem total_time_counterexample :
    ∃ s, midi_to_sequence_proto (.object exampleNegativeEndMidi) false =
        .ok (some s) ∧
      s.notes.map SeqNote.end_time = [0, -1] ∧
      s.total_time = -1 ∧
      ∃ n ∈ s.notes, s.total_time < n.end_time := by
  refine ⟨_, rfl, rfl, rfl, ?_⟩
  refine ⟨{ instrument := 0, program := 0, start_time := 0, end_time := 0,
            pitch := 60, velocity := 10 }, ?_, ?_⟩
  · exact List.mem_cons_self _ _
  · decide

/-- C3 amended: for every decode input whose note end times are all
nonnegative, `total_time` is the maximum end time over the notes and 0 when
there are none. -/
theorem total_time_is_max_end_time (midi : PrettyMIDI) (c : Bool)
    (s : NoteSequence)
    (hnn : ∀ inst ∈ midi.instruments, ∀ n ∈ inst.notes, 0 ≤ n.end_)
    (h : midi_to_sequence_proto (.object midi) c = .ok (some s)) :
    (s.notes = [] → s.total_time = 0) ∧
    (∀ n ∈ s.notes, n.end_time ≤ s.total_time) ∧
    (s.notes ≠ [] → s.total_time ∈ s.notes.map SeqNote.end_time) := by
  rcases midi_to_sequence_proto_object_ok h with ⟨ks, _, rfl⟩
  have hends : (buildSequence midi ks).notes.map SeqNote.end_time =
      (gatherEvents MidiInstrument.notes midi.instruments).map
        (fun x => x.2.2.end_) := by
    show ((gatherEvents _ _).map _).map _ = _
    rw [List.map_map]
    rfl
  have htt : (buildSequence midi ks).total_time =
      ((gatherEvents MidiInstrument.notes midi.instruments).map
        (fun x => x.2.2.end_)).foldl updateTotalTime 0 :=
    (List.foldl_map _ _ _ _).symm
  have hnng : ∀ x ∈ (gatherEvents MidiInstrument.notes midi.instruments).map
      (fun x => x.2.2.end_), (0 : Time) ≤ x := by
    intro x hx
    rcases List.mem_map.mp hx with ⟨t, ht, rfl⟩
    rcases mem_gatherEvents ht with ⟨inst, hinst, hmem⟩
    exact hnn inst hinst _ hmem
  have spec := foldl_updateTotalTime_spec _ hnng
  rw [← htt, ← hends] at spec
  refine ⟨?_, ?_, ?_⟩
  · intro hnil
    exact spec.1 (by rw [hnil]; rfl)
  · intro n hn
    exact spec.2.1 _ (List.mem_map_of_mem _ hn)
  · intro hne
    refine spec.2.2 (fun hme => hne ?_)
    exact List.map_eq_nil_iff.mp hme

/-- Witness for the amended C3: a concrete two-instrument input with
nonnegative end times 6, 2 and 4, where `total_time = 6` is attained. -/
def exampleTwoInstrumentsMidi : PrettyMIDI :=
  { resolution := 480, time_signature_changes := [], key_signature_changes := [],
    tempo_changes := [], instruments :=
      [{ program := 3, is_drum := false,
         notes :=
           [{ velocity := 10, pitch := 60, start := 5, end_ := 6 },
            { velocity := 11, pitch := 61, start := 1, end_ := 2 }],
         pitch_bends := [], control_changes := [] },
       { program := 4, is_drum := false,
         notes := [{ velocity := 12, pitch := 62, start := 3, end_ := 4 }],
         pitch_bends := [], control_changes := [] }] }

theorem total_time_is_max_end_time_witness :
    ∃ s, midi_to_sequence_proto (.object exampleTwoInstrumentsMidi) false =
        .ok (some s) ∧
      (∀ n ∈ s.notes, n.end_time ≤ s.total_time) ∧
      (s.notes ≠ [] → s.total_time ∈ s.notes.map SeqNote.end_time) := by
  obtain ⟨s, hs⟩ : ∃ s,
      midi_to_sequence_proto (.object exampleTwoInstrumentsMidi) false =
        .ok (some s) := ⟨_, rfl⟩
  have h := total_time_is_max_end_time exampleTwoInstrumentsMidi false s
    (by decide) hs
  exact ⟨s, hs, h.2.1, h.2.2⟩

/-- C4: decoded notes are exactly the instrument-major concatenation of the
per-instrument note lists in their original order (no time-based sort), and
pitch bends and control changes likewise. -/
theorem decode_event_order (midi : PrettyMIDI) (c : Bool) (s : NoteSequence)
    (h : midi_to_sequence_proto (.object midi) c = .ok (some s)) :
    s.notes = (midi.instruments.enum.map (fun x =>
      x.2.notes.map (fun n =>
        ({ instrument := (x.1 : Int), program := x.2.program,
           start_time := n.start, end_time := n.end_, pitch := n.pitch,
           velocity := n.velocity } : SeqNote)))).flatten ∧
    s.pitch_bends = (midi.instruments.enum.map (fun x =>
      x.2.pitch_bends.map (fun b =>
        ({ instrument := (x.1 : Int), program := x.2.program,
           time := b.time, bend := b.pitch } : SeqPitchBend)))).flatten ∧
    s.control_changes = (midi.instruments.enum.map (fun x =>
      x.2.control_changes.map (fun cc =>
        ({ instrument := (x.1 : Int), program := x.2.program,
           time := cc.time, control_number := cc.number,
           control_value := cc.value } : SeqControlChange)))).flatten := by
  rcases midi_to_sequence_proto_object_ok h with ⟨ks, _, rfl⟩
  refine ⟨?_, ?_, ?_⟩ <;>
    · show (gatherEvents _ midi.instruments).map _ = _
      rw [map_gatherEvents]

/-- Witness for C4 at a concrete input matching the claim's example: two
instruments, the first with notes n1, n2 where n2 starts before n1; the
decoded list is exactly [n1, n2, n3]. -/
theorem decode_event_order_witness :
    ∃ s, midi_to_sequence_proto (.object exampleTwoInstrumentsMidi) false =
        .ok (some s) ∧
      s.notes =
        [{ instrument := 0, program := 3, start_time := 5, end_time := 6,
           pitch := 60, velocity := 10 },
         { instrument := 0, program := 3, start_time := 1, end_time := 2,
           pitch := 61, velocity := 11 },
         { instrument := 1, program := 4, start_time := 3, end_time := 4,
           pitch := 62, velocity := 12 }] := by
  obtain ⟨s, hs⟩ : ∃ s,
      midi_to_sequence_proto (.object exampleTwoInstrumentsMidi) false =
        .ok (some s) := ⟨_, rfl⟩
  refine ⟨s, hs, ?_⟩
  rw [(decode_event_order exampleTwoInstrumentsMidi false s hs).1]
  rfl

/-! ## Encoder instrument grouping (lines 213–237) -/

instance : IsTrans (Int × Int) keyLE :=
  ⟨by intro a b c hab hbc; unfold keyLE at *; omega⟩

instance : IsTotal (Int × Int) keyLE :=
  ⟨by intro a b; unfold keyLE; omega⟩

/-- A sorted list splits as the elements failing an upward-closed predicate
followed by those satisfying it. -/
lemma sorted_filter_split {r : α → α → Prop} (p : α → Bool)
    (hup : ∀ x y, r x y → p x = true → p y = true) :
    ∀ l : List α, l.Sorted r → l = l.filter (fun x => !(p x)) ++ l.filter p := by
  intro l
  induction l with
  | nil => intro _; rfl
  | cons x xs ih =>
    intro hs
    rcases List.sorted_cons.mp hs with ⟨hrel, hxs⟩
    by_cases hpx : p x = true
    · have hall : ∀ y ∈ xs, p y = true := fun y hy => hup x y (hrel y hy) hpx
      rw [List.filter_cons_of_neg (by simp [hpx]), List.filter_cons_of_pos hpx,
        List.filter_eq_nil_iff.mpr (fun a ha => by simp [hall a ha]),
        List.filter_eq_self.mpr hall]
      rfl
    · have hpx' : p x = false := by
        cases hpc : p x
        · rfl
        · exact absurd hpc hpx
      rw [List.filter_cons_of_pos (by rw [hpx']; rfl),
        List.filter_cons_of_neg (by rw [hpx']; simp), List.cons_append,
        ← ih hxs]

lemma modifyIdx_zero_cons (f : α → α) (x : α) (l : List α) :
    modifyIdx f 0 (x :: l) = f x :: l := rfl

lemma modifyIdx_append (f : α → α) :
    ∀ (l : List α) (x : α), modifyIdx f l.length (l ++ [x]) = l ++ [f x] := by
  intro l x
  induction l with
  | nil => rfl
  | cons y ys ih =>
    show y :: modifyIdx f ys.length (ys ++ [x]) = y :: (ys ++ [f x])
    rw [ih]

lemma modifyIdx_modifyIdx (f g : α → α) :
    ∀ (i : Nat) (l : List α),
      modifyIdx f i (modifyIdx g i l) = modifyIdx (fun a => f (g a)) i l := by
  intro i
  induction i with
  | zero => intro l; cases l <;> rfl
  | succ n ih =>
    intro l
    cases l with
    | nil => rfl
    | cons y ys => show y :: modifyIdx f n (modifyIdx g n ys) = _; rw [ih]; rfl

/-- Overwriting an instrument's program and events twice keeps only the
second write (the drum flag survives both). -/
lemma setEvents_setEvents (seq : NoteSequence) (k k' : Int × Int)
    (inst : MidiInstrument) :
    setEvents seq k' (setEvents seq k inst) = setEvents seq k' inst := rfl

/-- The loop over keys with positive instrument index appends one fresh
instrument per key, each carrying its group's program and events. -/
lemma foldl_processKey_pos (seq : NoteSequence) :
    ∀ (keys : List (Int × Int)), (∀ k ∈ keys, 0 < k.1) →
      ∀ st : EncState,
        (keys.foldl (processKey seq) st).instruments =
          st.instruments ++
            keys.map (fun k => setEvents seq k (newInstrument k)) := by
  intro keys
  induction keys with
  | nil => intro _ st; simp
  | cons k ks ih =>
    intro hpos st
    have hk : 0 < k.1 := hpos k (by simp)
    rw [List.foldl_cons]
    have hstep : processKey seq st k =
        { instruments :=
            st.instruments ++ [setEvents seq k (newInstrument k)]
          cur := st.instruments.length } := by
      unfold processKey
      rw [if_pos hk]
      show ({ instruments := modifyIdx (setEvents seq k) st.instruments.length (st.instruments ++ [newInstrument k]), cur := st.instruments.length } : EncState) = _
      rw [modifyIdx_append]
    rw [hstep, ih (fun x hx => hpos x (by simp [hx]))]
    simp

/-- The loop over keys with non-positive instrument index repeatedly
overwrites the instrument the binding points at; only the last key's
program and events survive. -/
lemma foldl_processKey_nonpos (seq : NoteSequence) :
    ∀ (keys : List (Int × Int)), (∀ k ∈ keys, ¬ 0 < k.1) →
      ∀ st : EncState,
        keys.foldl (processKey seq) st =
          { instruments :=
              match keys.getLast? with
              | none => st.instruments
              | some k => modifyIdx (setEvents seq k) st.cur st.instruments
            cur := st.cur } := by
  intro keys
  induction keys with
  | nil => intro _ st; rfl
  | cons k ks ih =>
    intro hnp st
    have hk : ¬ 0 < k.1 := hnp k (by simp)
    rw [List.foldl_cons]
    have hstep : processKey seq st k =
        { instruments := modifyIdx (setEvents seq k) st.cur st.instruments
          cur := st.cur } := by
      unfold processKey
      rw [if_neg hk]
    rw [hstep, ih (fun x hx => hnp x (by simp [hx]))]
    cases ks with
    | nil => rfl
    | cons k2 ks' =>
      rcases hl : (k2 :: ks').getLast? with _ | last
      · exact absurd hl (by simp)
      · rw [List.getLast?_cons_cons, hl]
        show ({ instruments := modifyIdx (setEvents seq last) st.cur (modifyIdx (setEvents seq k) st.cur st.instruments), cur := st.cur } : EncState) = { instruments := modifyIdx (setEvents seq last) st.cur st.instruments, cur := st.cur }
        rw [modifyIdx_modifyIdx]
        rfl

/-- The encoder's instrument list: the placeholder (overwritten by the last
non-positive-index group, if any) followed by one fresh instrument per
positive-index group in ascending key order. -/
lemma encode_instruments_eq (ttt : TimeToTick) (seq : NoteSequence) :
    (sequence_proto_to_pretty_midi ttt seq).instruments =
      (match ((sortedKeys seq).filter
          (fun k => !(decide (0 < k.1)))).getLast? with
       | none => placeholderInstrument
       | some k => setEvents seq k placeholderInstrument) ::
      ((sortedKeys seq).filter (fun k => decide (0 < k.1))).map
        (fun k => setEvents seq k (newInstrument k)) := by
  have hsorted : (sortedKeys seq).Sorted keyLE :=
    List.sorted_insertionSort keyLE (eventKeys seq)
  have hup : ∀ x y : Int × Int, keyLE x y →
      decide (0 < x.1) = true → decide (0 < y.1) = true := by
    intro x y hxy hx
    rw [decide_eq_true_eq] at *
    unfold keyLE at hxy
    omega
  have hsplit := sorted_filter_split (fun k => decide (0 < k.1)) hup
    (sortedKeys seq) hsorted
  show ((sortedKeys seq).foldl (processKey seq)
    { instruments := [placeholderInstrument], cur := 0 }).instruments = _
  conv_lhs => rw [hsplit]
  rw [List.foldl_append]
  have hnp : ∀ k ∈ (sortedKeys seq).filter (fun k => !(decide (0 < k.1))),
      ¬ 0 < k.1 := by
    intro k hk
    have := (List.mem_filter.mp hk).2
    simpa using this
  have hp : ∀ k ∈ (sortedKeys seq).filter (fun k => decide (0 < k.1)),
      0 < k.1 := by
    intro k hk
    have := (List.mem_filter.mp hk).2
    simpa using this
  rw [foldl_processKey_nonpos seq _ hnp _, foldl_processKey_pos seq _ hp _]
  rcases hlast : ((sortedKeys seq).filter
      (fun k => !(decide (0 < k.1)))).getLast? with _ | k
  · rw [hlast]
    rfl
  · rw [hlast]
    rfl

/-! ## Concrete encoder inputs -/

/-- An arbitrary concrete stand-in for the collaborator's time→tick map. -/
def tttZero : TimeToTick := fun _ _ _ _ => 0

/-- Two note groups sharing instrument index 0 with different programs. -/
def exampleCollidingSeq : NoteSequence :=
  { ticks_per_beat := 220, total_time := 0, time_signatures := [],
    key_signatures := [], tempos := [],
    notes :=
      [{ instrument := 0, program := 0, start_time := 0, end_time := 1,
         pitch := 60, velocity := 100 },
       { instrument := 0, program := 1, start_time := 0, end_time := 1,
         pitch := 64, velocity := 100 }],
    pitch_bends := [], control_changes := [] }

/-- The claim C8 example: resolution 480, tempos (0 s, 120 bpm) and
(2 s, 90 bpm). -/
def exampleTempoSeq : NoteSequence :=
  { ticks_per_beat := 480, total_time := 0, time_signatures := [],
    key_signatures := [],
    tempos := [{ time := 0, bpm := 120 }, { time := 2, bpm := 90 }],
    notes := [], pitch_bends := [], control_changes := [] }

/-- A sequence whose single tempo entry is not at time 0. -/
def exampleLateTempoSeq : NoteSequence :=
  { ticks_per_beat := 220, total_time := 0, time_signatures := [],
    key_signatures := [], tempos := [{ time := 1, bpm := 100 }],
    notes := [], pitch_bends := [], control_changes := [] }

/-- C7 counterexample: the groups (0,0) and (0,1) are two distinct keys, but
the encoder emits a single instrument — the placeholder, overwritten twice —
so there is not one output instrument per distinct key, and the (0,0)
group's note is gone. -/
theorem encoder_per_key_counterexample :
    (sortedKeys exampleCollidingSeq).length = 2 ∧
    (sortedKeys exampleCollidingSeq).Nodup ∧
    (sequence_proto_to_pretty_midi tttZero
      exampleCollidingSeq).instruments.length = 1 ∧
    (sequence_proto_to_pretty_midi tttZero exampleCollidingSeq).instruments =
      [{ program := 1, is_drum := false,
         notes := [{ velocity := 100, pitch := 64, start := 0, end_ := 1 }],
         pitch_bends := [], control_changes := [] }] :=
  ⟨by decide, by decide, by decide, by decide⟩

/-- C7 amended: the encoder iterates the distinct (instrument, program)
keys in ascending order; every key with a positive instrument index gets
its own fresh instrument (`is_drum` iff the index is 9, program from the
key); all keys with instrument index ≤ 0 share the placeholder instrument,
later keys overwriting earlier ones. -/
theorem encoder_grouping_amended (ttt : TimeToTick) (seq : NoteSequence) :
    (sortedKeys seq).Sorted keyLE ∧
    (sortedKeys seq).Nodup ∧
    (sortedKeys seq).Perm (eventKeys seq) ∧
    (sequence_proto_to_pretty_midi ttt seq).instruments =
      (match ((sortedKeys seq).filter
          (fun k => !(decide (0 < k.1)))).getLast? with
       | none => placeholderInstrument
       | some k =>
         { program := k.2, is_drum := false, notes := notesFor seq k,
           pitch_bends := bendsFor seq k,
           control_changes := ccsFor seq k }) ::
      ((sortedKeys seq).filter (fun k => decide (0 < k.1))).map
        (fun k =>
          { program := k.2, is_drum := decide (k.1 = 9),
            notes := notesFor seq k, pitch_bends := bendsFor seq k,
            control_changes := ccsFor seq k }) := by
  have hperm : (sortedKeys seq).Perm (eventKeys seq) :=
    List.perm_insertionSort keyLE (eventKeys seq)
  exact ⟨List.sorted_insertionSort keyLE (eventKeys seq),
    hperm.symm.nodup (List.nodup_dedup _), hperm,
    encode_instruments_eq ttt seq⟩

/-- C9: when instrument index 0 carries two different programs p1 < p2 (and
no negative indices occur), both groups share the placeholder: the head
instrument holds program p2 with exactly the (0, p2) group's events — the
(0, p1) group's events are attached nowhere — and the remaining instruments
are exactly the positive-index groups. -/
theorem encoder_instrument_zero_collision (ttt : TimeToTick)
    (seq : NoteSequence) (p1 p2 : Int) (_hlt : p1 < p2)
    (hnn : ∀ k ∈ sortedKeys seq, 0 ≤ k.1)
    (hzero : (sortedKeys seq).filter (fun k => decide (k.1 = 0)) =
      [(0, p1), (0, p2)]) :
    (sequence_proto_to_pretty_midi ttt seq).instruments.head? =
      some { program := p2, is_drum := false,
             notes := notesFor seq (0, p2),
             pitch_bends := bendsFor seq (0, p2),
             control_changes := ccsFor seq (0, p2) } ∧
    (sequence_proto_to_pretty_midi ttt seq).instruments.tail =
      ((sortedKeys seq).filter (fun k => decide (0 < k.1))).map
        (fun k =>
          { program := k.2, is_drum := decide (k.1 = 9),
            notes := notesFor seq k, pitch_bends := bendsFor seq k,
            control_changes := ccsFor seq k }) := by
  have heq := encode_instruments_eq ttt seq
  have hfe : (sortedKeys seq).filter (fun k => !(decide (0 < k.1))) =
      (sortedKeys seq).filter (fun k => decide (k.1 = 0)) := by
    refine List.filter_congr (fun k hk => ?_)
    have h0 := hnn k hk
    by_cases h : k.1 = 0
    · simp [h]
    · have hpos : 0 < k.1 := by omega
      simp [h, hpos]
  rw [hfe, hzero] at heq
  have hl : ([(0, p1), (0, p2)] : List (Int × Int)).getLast? =
      some (0, p2) := rfl
  rw [hl] at heq
  rw [heq]
  exact ⟨rfl, rfl⟩

/-- Witness for C9 at the colliding example (p1 = 0, p2 = 1). -/
theorem encoder_instrument_zero_collision_witness :
    (sequence_proto_to_pretty_midi tttZero
        exampleCollidingSeq).instruments.head? =
      some { program := 1, is_drum := false,
             notes := notesFor exampleCollidingSeq (0, 1),
             pitch_bends := bendsFor exampleCollidingSeq (0, 1),
             control_changes := ccsFor exampleCollidingSeq (0, 1) } ∧
    (sequence_proto_to_pretty_midi tttZero
        exampleCollidingSeq).instruments.tail =
      ((sortedKeys exampleCollidingSeq).filter
          (fun k => decide (0 < k.1))).map
        (fun k =>
          { program := k.2, is_drum := decide (k.1 = 9),
            notes := notesFor exampleCollidingSeq k,
            pitch_bends := bendsFor exampleCollidingSeq k,
            control_changes := ccsFor exampleCollidingSeq k }) :=
  encoder_instrument_zero_collision tttZero exampleCollidingSeq 0 1
    (by decide) (by decide) (by decide)

/-! ## Encoder tempo handling (lines 178–181 and 205–211) -/

/-- A fold appending one element per step, where each new element may read
the list built so far: length and pointwise characterisation. -/
lemma foldl_append_build (g : List β → α → β) :
    ∀ (l : List α) (acc : List β),
      ∃ added : List β,
        l.foldl (fun a t => a ++ [g a t]) acc = acc ++ added ∧
        added.length = l.length ∧
        ∀ i (hi : i < l.length),
          added[i]? = some (g (acc ++ added.take i) l[i]) := by
  intro l
  induction l with
  | nil =>
    intro acc
    exact ⟨[], by simp, rfl, fun i hi => absurd hi (Nat.not_lt_zero i)⟩
  | cons t ts ih =>
    intro acc
    rcases ih (acc ++ [g acc t]) with ⟨added', h1, h2, h3⟩
    refine ⟨g acc t :: added', ?_, by simp [h2], ?_⟩
    · rw [List.foldl_cons, h1, List.append_assoc]
      rfl
    · intro i hi
      cases i with
      | zero => simp
      | succ n =>
        have hn : n < ts.length := by
          simpa using hi
        rw [List.getElem?_cons_succ, h3 n hn, List.append_assoc,
          List.take_succ_cons, List.getElem_cons_succ]
        rfl

/-- C8: when the first tempo entry is at time 0 its bpm becomes the
constructor's initial tempo, and each later entry appends exactly one
`(time_to_tick(time), 60 / (resolution * bpm))` breakpoint, the tick being
computed from the breakpoints already installed.  The final conjunct is the
claim's concrete example: tempos [(0, 120), (2, 90)] at resolution 480 give
initial tempo 120 and exactly one breakpoint, at the tick for 2 seconds. -/
theorem encoder_tempo_breakpoints (ttt : TimeToTick) (seq : NoteSequence)
    (t0 : SeqTempo) (rest : List SeqTempo)
    (htem : seq.tempos = t0 :: rest) (ht0 : t0.time = 0) :
    (sequence_proto_to_pretty_midi ttt seq).initial_tempo = some t0.bpm ∧
    (sequence_proto_to_pretty_midi ttt seq).tick_scales.length =
      rest.length ∧
    (∀ i (hi : i < rest.length),
      (sequence_proto_to_pretty_midi ttt seq).tick_scales[i]? =
        some (ttt seq.ticks_per_beat (some t0.bpm)
            ((sequence_proto_to_pretty_midi ttt seq).tick_scales.take i)
            rest[i].time,
          60 / ((seq.ticks_per_beat : ℚ) * rest[i].bpm))) ∧
    ((sequence_proto_to_pretty_midi ttt exampleTempoSeq).initial_tempo =
        some 120 ∧
      (sequence_proto_to_pretty_midi ttt exampleTempoSeq).tick_scales =
        [(ttt 480 (some 120) [] 2, 60 / ((480 : ℚ) * 90))]) := by
  obtain ⟨tpb, tt, tss, kss, tps, ns, pbs, ccs⟩ := seq
  have htem' : tps = t0 :: rest := htem
  subst htem'
  have hinit : (sequence_proto_to_pretty_midi ttt
      { ticks_per_beat := tpb, total_time := tt, time_signatures := tss,
        key_signatures := kss, tempos := t0 :: rest, notes := ns,
        pitch_bends := pbs, control_changes := ccs }).initial_tempo =
      some t0.bpm := by
    show (if t0.time = 0 then some t0.bpm else none) = some t0.bpm
    rw [if_pos ht0]
  rcases foldl_append_build
      (fun (a : List (Int × ℚ)) (t : SeqTempo) =>
        (ttt tpb (if t0.time = 0 then some t0.bpm else none) a t.time,
          60 / ((tpb : ℚ) * t.bpm)))
      rest [] with ⟨added, h1, h2, h3⟩
  have hts : (sequence_proto_to_pretty_midi ttt
      { ticks_per_beat := tpb, total_time := tt, time_signatures := tss,
        key_signatures := kss, tempos := t0 :: rest, notes := ns,
        pitch_bends := pbs, control_changes := ccs }).tick_scales =
      added := h1
  refine ⟨hinit, ?_, ?_, ?_, ?_⟩
  · rw [hts, h2]
  · intro i hi
    rw [hts]
    rw [h3 i hi]
    rw [ht0]
    rfl
  · rfl
  · rfl

/-- Witness for C8 at the claim's concrete example. -/
theorem encoder_tempo_breakpoints_witness :
    (sequence_proto_to_pretty_midi tttZero exampleTempoSeq).initial_tempo =
      some 120 ∧
    (sequence_proto_to_pretty_midi tttZero
      exampleTempoSeq).tick_scales.length = 1 ∧
    (sequence_proto_to_pretty_midi tttZero exampleTempoSeq).tick_scales =
      [(tttZero 480 (some 120) [] 2, 60 / ((480 : ℚ) * 90))] := by
  have h := encoder_tempo_breakpoints tttZero exampleTempoSeq
    { time := 0, bpm := 120 } [{ time := 2, bpm := 90 }] rfl rfl
  exact ⟨h.1, h.2.1, h.2.2.2.2⟩

/-- C10: when the tempo list is non-empty but starts later than time 0, the
first entry is dead: no initial tempo is passed, and changing that entry's
bpm leaves the encoder output identical. -/
theorem encoder_ignores_nonzero_first_tempo (ttt : TimeToTick)
    (seq : NoteSequence) (t0 : SeqTempo) (b : ℚ) (rest : List SeqTempo)
    (htem : seq.tempos = t0 :: rest) (ht0 : t0.time ≠ 0) :
    (sequence_proto_to_pretty_midi ttt seq).initial_tempo = none ∧
    sequence_proto_to_pretty_midi ttt
        { seq with tempos := { t0 with bpm := b } :: rest } =
      sequence_proto_to_pretty_midi ttt seq := by
  obtain ⟨tpb, tt, tss, kss, tps, ns, pbs, ccs⟩ := seq
  have htem' : tps = t0 :: rest := htem
  subst htem'
  constructor
  · show (if t0.time = 0 then some t0.bpm else none) = none
    rw [if_neg ht0]
  · simp [sequence_proto_to_pretty_midi, if_neg ht0]
    rfl

/-- Witness for C10: raising the dead first tempo entry's bpm from 100 to 7
does not change the output. -/
theorem encoder_ignores_nonzero_first_tempo_witness :
    (sequence_proto_to_pretty_midi tttZero
      exampleLateTempoSeq).initial_tempo = none ∧
    sequence_proto_to_pretty_midi tttZero
        { exampleLateTempoSeq with
            tempos := [{ time := 1, bpm := 7 }] } =
      sequence_proto_to_pretty_midi tttZero exampleLateTempoSeq :=
  encoder_ignores_nonzero_first_tempo tttZero exampleLateTempoSeq
    { time := 1, bpm := 100 } 7 [] rfl (by norm_num)

end MidiIO
